import Mathlib

/-!
# Constrained flight-itinerary search: a shallow embedding

This file embeds the core of the `news_feed` flight-search repository
(`models.py`, `data_handler.py`, `main.py`) in Lean and proves the spec's
testable properties about it.

Modelling conventions:
* Every timestamp is an `Int` count of minutes.  A `datetime` is minutes
  since an epoch, a `time` is minutes after midnight, a `date` is a day
  index (so `datetime = date * 1440 + time`, `.date()` is floor division
  by 1440, `.hour` of a time is division by 60, and `timedelta(hours=h)`
  is `h * 60`).  Python `%`/`//` on ints round toward negative infinity,
  matching Lean's `Int.emod`/`Int.ediv`.  `date.weekday()` is modelled as
  `date % 7`, a faithful relabelling of weekdays.
* Python sets of strings are modelled as duplicate-free `List String`
  (only cardinality, membership and subset tests are ever used).
* The `heapq` priority queue of tuples `(duration, counter, ...)` is
  modelled as a list popped at the least `(duration, counter)` pair;
  counters are unique, so the tuple order is total on live entries and the
  pop sequence is exactly the heap's.
* The insertion-ordered Python `dict` is modelled as an association list:
  assignment to an existing key replaces in place, a new key appends.
* The `while` loop runs on explicit fuel; one unit is one iteration.  All
  invariants proved below hold for every fuel value.
* `stop_event` is a cooperatively polled flag; the embedding carries its
  (fixed) value, which is all the single-threaded loop can observe.
-/

/-! ## models.py -/

structure City where
  name : String
  name_cn : String
  code : String
  country : String
  country_cn : String
deriving DecidableEq

def CITIES : List City :=
  [⟨"Bamako", "巴马科", "BKO", "Mali", "马里"⟩,
   ⟨"Algiers", "阿尔及尔", "ALG", "Algeria", "阿尔及利亚"⟩,
   ⟨"Malabo", "马拉博", "SSG", "Equatorial Guinea", "赤道几内亚"⟩,
   ⟨"Cotonou", "科托努", "COO", "Benin", "贝宁"⟩,
   ⟨"Tunis", "突尼斯", "TUN", "Tunisia", "突尼斯"⟩,
   ⟨"Abidjan", "阿比让", "ABJ", "Cote dIvoire", "科特迪瓦"⟩,
   ⟨"Nouakchott", "努瓦克肖特", "NKC", "Mauritania", "毛里塔尼亚"⟩,
   ⟨"Casablanca", "卡萨布兰卡", "CMN", "Morocco", "摩洛哥"⟩,
   ⟨"Ouagadougou", "瓦加杜古", "OUA", "Burkina Faso", "布基纳法索"⟩,
   ⟨"Niamey", "尼亚美", "NIM", "Niger", "尼日尔"⟩,
   ⟨"Lome", "洛美", "LFW", "Togo", "多哥"⟩,
   ⟨"Dakar", "达喀尔", "DSS", "Senegal", "塞内加尔"⟩,
   ⟨"Addis Ababa", "亚的斯亚贝巴", "ADD", "Ethiopia", "埃塞俄比亚"⟩,
   ⟨"Cairo", "开罗", "CAI", "Egypt", "埃及"⟩,
   ⟨"Douala", "杜阿拉", "DLA", "Cameroon", "喀麦隆"⟩,
   ⟨"Yaounde", "雅温得", "NSI", "Cameroon", "喀麦隆"⟩,
   ⟨"Djibouti", "吉布提", "JIB", "Djibouti", "吉布提"⟩,
   ⟨"Juba", "朱巴", "JUB", "South Sudan", "南苏丹"⟩,
   ⟨"Libreville", "利伯维尔", "LBV", "Gabon", "加蓬"⟩,
   ⟨"Benghazi", "班加西", "BEN", "Libya", "利比亚"⟩,
   ⟨"Tripoli", "的黎波里", "TIP", "Libya", "利比亚"⟩,
   ⟨"Monrovia", "蒙罗维亚", "ROB", "Liberia", "利比里亚"⟩,
   ⟨"Kinshasa", "金沙萨", "FIH", "DR Congo", "刚果（金）"⟩,
   ⟨"Brazzaville", "布拉柴维尔", "BZV", "Congo-Brazzaville", "刚果（布）"⟩,
   ⟨"Conakry", "科纳克里", "CKY", "Guinea", "几内亚"⟩,
   ⟨"Banjul", "班珠尔", "BJL", "Gambia", "冈比亚"⟩,
   ⟨"Praia", "普拉亚", "RAI", "Cape Verde", "佛得角"⟩,
   ⟨"NDjamena", "恩贾梅纳", "NDJ", "Chad", "乍得"⟩,
   ⟨"Bangui", "班吉", "BGF", "Central African Republic", "中非共和国"⟩]

/-- `CITIES_BY_CODE.get(code)`: the codes in `CITIES` are pairwise distinct,
so the dict built from the list agrees with a first-match scan. -/
def get_city_by_code (code : String) : Option City :=
  CITIES.find? (fun c => c.code == code)

structure Flight where
  date : Int
  airline : String
  flight_number : String
  flight_class : String
  departure_city_code : String
  arrival_city_code : String
  departure_time : Int
  arrival_time : Int
  departure_datetime : Int
  arrival_datetime : Int
  duration : Int
  transfers : Int
  transfer_info : String
  direct_flight : Bool
deriving DecidableEq

structure TravelPlan where
  flights : List Flight
  total_duration : Int
deriving DecidableEq

/-- `TravelPlan.__post_init__`: `total_duration = sum(f.duration, timedelta())`. -/
def TravelPlan.ofFlights (fs : List Flight) : TravelPlan :=
  ⟨fs, fs.foldl (fun acc f => acc + f.duration) 0⟩

/-! ## data_handler.py: recurring-schedule expansion -/

/-- `expand_flights_for_date_range`: for every day of the range, re-emit the
base flights whose weekday matches, with datetimes recomputed on that day
(arrival day shifted by the base flight's day-crossing offset). -/
def expand_flights_for_date_range (base_flights : List Flight)
    (start_date end_date : Int) : List Flight :=
  ((List.range (end_date - start_date + 1).toNat).map (fun i => start_date + i)).flatMap
    (fun d =>
      (base_flights.filter (fun f => f.date % 7 == d % 7)).map (fun bf =>
        { bf with
            date := d
            departure_datetime := d * 1440 + bf.departure_time
            arrival_datetime :=
              (d + (bf.arrival_datetime / 1440 - bf.departure_datetime / 1440)) * 1440
                + bf.arrival_time }))

/-! ## main.py: arguments and the pre-filter -/

structure SearchArgs where
  base_flights : List Flight
  start_date : Int
  end_date : Int
  cities_choice : List String
  num_countries : Int
  start_city : Option String := none
  end_city : Option String := none
  flight_class_filter : String := "ALL"
  max_transfers : Option Int := none
  min_layover_hours : Int := 10
  max_layover_hours : Int := 48
  max_flight_duration_hours : Option Int := none
  no_fly_start_hour : Option Int := none
  no_fly_end_hour : Option Int := none
  forced_cities : Option (List String) := none
  stop_event : Bool := false
  top_n : Nat := 5

/-- Python string containment (`needle in hay`). -/
def hasSubstr (hay needle : String) : Bool :=
  (List.range (hay.data.length + 1)).any (fun i => needle.data.isPrefixOf (hay.data.drop i))

/-- Truthiness of an `Optional[str]`: `None` and `""` are falsy. -/
def optTruthy : Option String → Bool
  | none => false
  | some s => s != ""

/-- The per-flight pre-filter of `find_best_travel_plan` (main.py lines
44-54): class, transfer count, scope, single-leg duration, and the
departure-hour no-fly band. -/
def preFilterKeeps (a : SearchArgs) (flight : Flight) : Bool :=
  if (a.flight_class_filter != "ALL" && !(hasSubstr flight.flight_class a.flight_class_filter))
      || (match a.max_transfers with
          | some m => decide (flight.transfers > m)
          | none => false)
      || (!(decide (flight.departure_city_code ∈ a.cities_choice))
          || !(decide (flight.arrival_city_code ∈ a.cities_choice)))
      || (match a.max_flight_duration_hours with
          | some h => decide (flight.duration > h * 60)
          | none => false) then
    false
  else
    match a.no_fly_start_hour, a.no_fly_end_hour with
    | some s, some e =>
      let dep_hour := flight.departure_time / 60
      let is_overnight := decide (s > e)
      if (is_overnight && (decide (dep_hour ≥ s) || decide (dep_hour < e)))
          || (!is_overnight && (decide (s ≤ dep_hour) && decide (dep_hour < e))) then
        false
      else true
    | _, _ => true

/-- `pre_filtered_flights` (main.py lines 42-55): the expanded universe
restricted by the static per-flight constraints. -/
def pre_filtered_flights (a : SearchArgs) : List Flight :=
  (expand_flights_for_date_range a.base_flights a.start_date a.end_date).filter
    (preFilterKeeps a)

/-- `set(forced_cities) if forced_cities else set()`. -/
def forcedSet (a : SearchArgs) : List String :=
  (a.forced_cities.getD []).dedup

def touchesForced (fs : List String) (f : Flight) : Bool :=
  decide (f.departure_city_code ∈ fs) || decide (f.arrival_city_code ∈ fs)

/-- The forced-cities reorder (main.py lines 60-71): flights touching a
forced city first, the rest after, both in pre-filter order. -/
def ordered_flights (a : SearchArgs) : List Flight :=
  let pf := pre_filtered_flights a
  let fs := forcedSet a
  if fs = [] then pf
  else pf.filter (touchesForced fs) ++ pf.filter (fun f => !(touchesForced fs f))

/-! ## main.py: the adjacency index (`flights_by_departure`) -/

/-- One `defaultdict(list)` append: extend the bucket of an existing key in
place, or append a fresh singleton bucket. -/
def addToAdj : List (String × List Flight) → String → Flight → List (String × List Flight)
  | [], c, f => [(c, [f])]
  | (c0, fs) :: rest, c, f =>
    if c0 = c then (c0, fs ++ [f]) :: rest
    else (c0, fs) :: addToAdj rest c f

/-- `flights_by_departure` (main.py lines 73-75). -/
def build_flights_by_departure (flights : List Flight) : List (String × List Flight) :=
  flights.foldl (fun adj f => addToAdj adj f.departure_city_code f) []

/-- `flights_by_departure.get(code, [])`. -/
def adjGet : List (String × List Flight) → String → List Flight
  | [], _ => []
  | (c, fs) :: rest, code => if c = code then fs else adjGet rest code

/-! ## main.py: search state -/

/-- The payload of one priority-queue tuple, minus the tie-break counter:
`(duration, path, visited_countries, visited_cities)`. -/
structure EntryCore where
  duration : Int
  path : List Flight
  countries : List String
  cities : List String
deriving DecidableEq

/-- One heap tuple `(duration, counter, path, countries, cities)`. -/
structure Entry where
  core : EntryCore
  counter : Nat
deriving DecidableEq

/-- The read-only context the loop closes over. -/
structure Ctx where
  adj : List (String × List Flight)
  start_city : Option String
  end_city : Option String
  start_country : Option String
  target : Int
  min_layover_hours : Int
  max_layover_hours : Int
  forced_set : List String
  top_n : Nat
  stop : Bool

/-- `start_country` (main.py lines 78-81). -/
def startCountryOpt (a : SearchArgs) : Option String :=
  if optTruthy a.start_city then
    (get_city_by_code (a.start_city.getD "")).map City.country
  else none

def mkCtx (a : SearchArgs) : Ctx :=
  ⟨build_flights_by_departure (ordered_flights a), a.start_city, a.end_city,
   startCountryOpt a, a.num_countries, a.min_layover_hours, a.max_layover_hours,
   forcedSet a, a.top_n, a.stop_event⟩

/-- The `new_countries_count` computation (main.py lines 126-129 and
300-303): the start country is discounted only when `start_city` and
`start_country` are truthy and the start country was actually visited. -/
def countryCount (ctx : Ctx) (c : EntryCore) : Int :=
  if optTruthy ctx.start_city && optTruthy ctx.start_country
      && decide ((ctx.start_country.getD "") ∈ c.countries) then
    (c.countries.length : Int) - 1
  else
    (c.countries.length : Int)

/-- Python truthiness of the `timedelta` pruning threshold: `None` and a
zero timedelta are both falsy. -/
def thrActive : Option Int → Bool
  | none => false
  | some t => t != 0

def thrVal : Option Int → Int
  | none => 0
  | some t => t

/-! ## main.py: seeding (lines 90-107) -/

/-- Seed entries contributed by one candidate start location, in flight
order; each seed is a one-leg path to a different country. -/
def seedsFor (ctx : Ctx) (code : String) : List EntryCore :=
  match get_city_by_code code with
  | none => []
  | some c =>
    (adjGet ctx.adj code).filterMap (fun f =>
      match get_city_by_code f.arrival_city_code with
      | none => none
      | some ac =>
        if ac.country = c.country then none
        else some ⟨f.duration, [f], [c.country, ac.country], [code, f.arrival_city_code]⟩)

def initial_cities (a : SearchArgs) : List String :=
  if optTruthy a.start_city then [a.start_city.getD ""] else a.cities_choice

def seedCores (a : SearchArgs) : List EntryCore :=
  (initial_cities a).flatMap (seedsFor (mkCtx a))

/-- Attach consecutive counters starting at `c0` (heap pushes). -/
def numberFrom (c0 : Nat) : List EntryCore → List Entry
  | [] => []
  | c :: cs => ⟨c, c0⟩ :: numberFrom (c0 + 1) cs

/-! ## main.py: forced-cities pruning (lines 141-187) -/

/-- Number of configured forced cities not yet visited. -/
def forcedRemaining (ctx : Ctx) (cities : List String) : Nat :=
  ctx.forced_set.length - (ctx.forced_set.filter (fun x => decide (x ∈ cities))).length

/-- Lines 155-187: some unvisited forced city is reachable from the current
location by a direct flight or one intermediate stop. -/
def canReachForced (ctx : Ctx) (c : EntryCore) (location : String) : Bool :=
  ctx.forced_set.any (fun fc =>
    !(decide (fc ∈ c.cities))
      && ((adjGet ctx.adj location).any (fun f => f.arrival_city_code == fc)
          || (adjGet ctx.adj location).any (fun nf =>
                (adjGet ctx.adj nf.arrival_city_code).any
                  (fun cf => cf.arrival_city_code == fc))))

/-- The popped-node forced-cities pruning block (lines 141-187); `true`
means the node is discarded. -/
def forcedPrune (ctx : Ctx) (c : EntryCore) (newCount : Int) (last : Flight) : Bool :=
  if ctx.forced_set = [] then false
  else
    let fr := forcedRemaining ctx c.cities
    if decide (newCount ≥ ctx.target) && decide (fr > 0) then true
    else
      let countries_left := ctx.target - newCount
      if decide (fr > 0) && decide (countries_left < (fr : Int)) then true
      else if decide (fr > 0) && decide (countries_left > 0) then
        !(canReachForced ctx c last.arrival_city_code)
      else false

/-! ## main.py: expansion (lines 233-326) -/

/-- `end_city and next_flight.arrival_city_code == end_city` (truthiness
included). -/
def endMatch (ctx : Ctx) (nf : Flight) : Bool :=
  optTruthy ctx.end_city && decide (nf.arrival_city_code = ctx.end_city.getD "")

/-- Lines 240-252: the look-ahead gate on visiting the end city too early
(or too late); `true` rejects the candidate flight. -/
def endGateReject (ctx : Ctx) (c : EntryCore) (newCount : Int) (nf : Flight) : Bool :=
  if endMatch ctx nf then
    match get_city_by_code nf.arrival_city_code with
    | some ac =>
      if decide (ac.country ∉ c.countries) then decide (newCount ≠ ctx.target - 1)
      else decide (newCount ≠ ctx.target)
    | none => false
  else false

/-- `is_final_leg_home` (lines 271-275). -/
def isFinalLegHome (ctx : Ctx) (newCount : Int) (nf : Flight) : Bool :=
  endMatch ctx nf && decide (newCount ≥ ctx.target)

/-- The successor payload (lines 289-297): extended path, summed duration,
set-union of countries and cities. -/
def extCore (c : EntryCore) (nf : Flight) (ac : City) : EntryCore :=
  ⟨c.duration + nf.duration, c.path ++ [nf],
   if ac.country ∈ c.countries then c.countries else c.countries ++ [ac.country],
   if nf.arrival_city_code ∈ c.cities then c.cities
   else c.cities ++ [nf.arrival_city_code]⟩

/-- One candidate next flight (the body of the `for next_flight` loop,
lines 235-322): `none` when any rejection fires, otherwise the new tuple
payload to push. -/
def expandOne (ctx : Ctx) (last : Flight) (c : EntryCore) (newCount : Int)
    (threshold : Option Int) (nf : Flight) : Option EntryCore :=
  if nf.departure_city_code ≠ last.arrival_city_code then none
  else if endGateReject ctx c newCount nf then none
  else if nf.departure_datetime < last.arrival_datetime then none
  else if !(decide (ctx.min_layover_hours * 60
          ≤ nf.departure_datetime - last.arrival_datetime)
        && decide (nf.departure_datetime - last.arrival_datetime
          ≤ ctx.max_layover_hours * 60)) then none
  else
    match get_city_by_code nf.arrival_city_code with
    | none => none
    | some ac =>
      if !(decide (ac.country ∉ c.countries)) && !(isFinalLegHome ctx newCount nf) then none
      else if decide (ac.country ∉ c.countries) && decide (newCount ≥ ctx.target)
          && !(endMatch ctx nf) then none
      else if thrActive threshold
          && decide (c.duration + nf.duration ≥ thrVal threshold) then none
      else if decide (countryCount ctx (extCore c nf ac) > ctx.target)
          && !(endMatch ctx nf) then none
      else if ctx.forced_set ≠ [] then
        if decide (forcedRemaining ctx (extCore c nf ac).cities > 0)
            && decide (ctx.target - countryCount ctx (extCore c nf ac)
              < (forcedRemaining ctx (extCore c nf ac).cities : Int)) then none
        else some (extCore c nf ac)
      else some (extCore c nf ac)

/-! ## main.py: goal handling and the result dict (lines 189-231) -/

/-- The `path_signature` (lines 215-216): the start city (the user's when
given, the path's first departure otherwise) followed by every arrival. -/
def sigOfPlan (ctx : Ctx) (p : TravelPlan) : List String :=
  (if optTruthy ctx.start_city then ctx.start_city.getD ""
   else ((p.flights.head?).map Flight.departure_city_code).getD "")
    :: p.flights.map Flight.arrival_city_code

/-- The explicit path-validity check (lines 199-211): starts at the fixed
start when one is given, and consecutive legs are contiguous. -/
def contigB : List Flight → Bool
  | [] => true
  | [_] => true
  | a :: b :: rest =>
    (a.arrival_city_code == b.departure_city_code) && contigB (b :: rest)

def pathValidB (ctx : Ctx) (fs : List Flight) : Bool :=
  (if optTruthy ctx.start_city then
    ((fs.head?).map Flight.departure_city_code).getD "" == ctx.start_city.getD ""
   else true)
    && contigB fs

/-- Insertion-ordered dict lookup. -/
def dictFind : List (List String × TravelPlan) → List String → Option TravelPlan
  | [], _ => none
  | kv :: rest, sig => if kv.1 = sig then some kv.2 else dictFind rest sig

/-- Insertion-ordered dict assignment: replace in place or append. -/
def dictInsert (sig : List String) (plan : TravelPlan) :
    List (List String × TravelPlan) → List (List String × TravelPlan)
  | [] => [(sig, plan)]
  | kv :: rest =>
    if kv.1 = sig then (sig, plan) :: rest else kv :: dictInsert sig plan rest

/-- `max(p.total_duration for p in found_plans.values())`; Python raises on
an empty dict (only reachable with `top_n = 0`), modelled as `0`. -/
def maxDurD : List (List String × TravelPlan) → Int
  | [] => 0
  | kv :: rest => rest.foldl (fun m x => max m x.2.total_duration) kv.2.total_duration

/-- Evicting the worst plan (lines 221-226): the reverse duration sort is
stable, so `sorted_plans[0]` is the earliest-inserted plan of maximal
duration; the identity scan then deletes exactly that entry. -/
def removeFirstWithDur (m : Int) : List (List String × TravelPlan) →
    List (List String × TravelPlan)
  | [] => []
  | kv :: rest =>
    if kv.2.total_duration = m then rest else kv :: removeFirstWithDur m rest

/-- The loop state: queue, `found_plans`, `counter`, `pruning_threshold`. -/
structure SState where
  queue : List Entry
  found : List (List String × TravelPlan)
  counter : Nat
  threshold : Option Int

/-- The `found1` update for a given insertion decision: insert, then evict
the earliest-inserted worst-duration entry on overflow (lines 219-226). -/
def offerCore (ctx : Ctx) (sig : List String) (plan : TravelPlan)
    (found : List (List String × TravelPlan)) (doInsert : Bool) :
    List (List String × TravelPlan) :=
  if doInsert && decide ((if doInsert then dictInsert sig plan found else found).length
      > ctx.top_n) then
    removeFirstWithDur (maxDurD (if doInsert then dictInsert sig plan found else found))
      (if doInsert then dictInsert sig plan found else found)
  else (if doInsert then dictInsert sig plan found else found)

/-- Lines 218-226: insert the plan when its signature is new or its duration
beats the retained plan with the same signature. -/
def offerPlan (ctx : Ctx) (sig : List String) (plan : TravelPlan)
    (found : List (List String × TravelPlan)) : List (List String × TravelPlan) :=
  offerCore ctx sig plan found
    (match dictFind found sig with
     | none => true
     | some old => decide (plan.total_duration < old.total_duration))

/-- The accepted-goal branch (lines 192-231): forced-subset recheck, the
validity check, the dict offer, the threshold refresh. -/
def handleGoal (ctx : Ctx) (e : Entry) (s : SState) : SState :=
  if ctx.forced_set ≠ [] && !(ctx.forced_set.all (fun x => decide (x ∈ e.core.cities))) then s
  else if !(pathValidB ctx (TravelPlan.ofFlights e.core.path).flights) then s
  else
    ⟨s.queue,
     offerPlan ctx (sigOfPlan ctx (TravelPlan.ofFlights e.core.path))
       (TravelPlan.ofFlights e.core.path) s.found,
     s.counter,
     if (offerPlan ctx (sigOfPlan ctx (TravelPlan.ofFlights e.core.path))
           (TravelPlan.ofFlights e.core.path) s.found).length = ctx.top_n then
       some (maxDurD (offerPlan ctx (sigOfPlan ctx (TravelPlan.ofFlights e.core.path))
           (TravelPlan.ofFlights e.core.path) s.found))
     else s.threshold⟩

/-- One loop iteration after the pop (lines 119-326); `s` already holds the
queue with `e` removed. -/
def processEntry (ctx : Ctx) (e : Entry) (s : SState) : SState :=
  if thrActive s.threshold && decide (e.core.duration ≥ thrVal s.threshold) then s
  else if decide (countryCount ctx e.core > ctx.target) then s
  else
    match e.core.path.getLast? with
    | none => s
    | some last =>
      if forcedPrune ctx e.core (countryCount ctx e.core) last then s
      else if decide (countryCount ctx e.core ≥ ctx.target)
          && (!(optTruthy ctx.end_city)
              || decide (last.arrival_city_code = ctx.end_city.getD "")) then
        handleGoal ctx e s
      else
        ⟨s.queue ++ numberFrom s.counter
            ((adjGet ctx.adj last.arrival_city_code).filterMap
              (expandOne ctx last e.core (countryCount ctx e.core) s.threshold)),
         s.found,
         s.counter + ((adjGet ctx.adj last.arrival_city_code).filterMap
              (expandOne ctx last e.core (countryCount ctx e.core) s.threshold)).length,
         s.threshold⟩

/-! ## main.py: the heap and the loop -/

/-- Strict order on heap tuples: `(duration, counter)` lexicographically.
Counters are pairwise distinct, so this orders live entries totally. -/
def entryLt (a b : Entry) : Bool :=
  decide (a.core.duration < b.core.duration)
    || (decide (a.core.duration = b.core.duration) && decide (a.counter < b.counter))

def findMinEntry (e : Entry) (es : List Entry) : Entry :=
  es.foldl (fun m x => if entryLt x m then x else m) e

/-- `heapq.heappop`: remove and return the least tuple. -/
def popMin : List Entry → Option (Entry × List Entry)
  | [] => none
  | e :: es =>
    let m := findMinEntry e es
    some (m, (e :: es).erase m)

/-- The `while priority_queue` loop (lines 115-326), one fuel per
iteration.  Exhausted fuel returns the plans found so far; every theorem
below holds for every fuel value. -/
def searchLoop (ctx : Ctx) : Nat → SState → List (List String × TravelPlan)
  | 0, s => s.found
  | fuel + 1, s =>
    match popMin s.queue with
    | none => s.found
    | some (e, q) =>
      if ctx.stop then s.found
      else searchLoop ctx fuel (processEntry ctx e ⟨q, s.found, s.counter, s.threshold⟩)

def initState (a : SearchArgs) : SState :=
  ⟨numberFrom 0 (seedCores a), [], (seedCores a).length, none⟩

/-- Ascending order on total duration, the final sort key. -/
def planLe (p q : TravelPlan) : Prop := p.total_duration ≤ q.total_duration

instance : DecidableRel planLe := fun p q => Int.decLe _ _

instance : IsTotal TravelPlan planLe := ⟨fun a b => Int.le_total _ _⟩

instance : IsTrans TravelPlan planLe := ⟨fun _ _ _ h1 h2 => le_trans h1 h2⟩

/-- `find_best_travel_plan` (main.py lines 9-333): guards, expansion,
pre-filter, seeding, the search loop, and the final stable ascending sort
truncated to `top_n`. -/
def find_best_travel_plan (a : SearchArgs) (fuel : Nat) : List TravelPlan :=
  if a.base_flights = [] ∨ a.cities_choice = [] ∨ a.num_countries ≤ 0 then []
  else if pre_filtered_flights a = [] then []
  else
    (List.insertionSort planLe
      ((searchLoop (mkCtx a) fuel (initState a)).map Prod.snd)).take a.top_n

/-! ## Spec-side vocabulary (the claims' own terms) -/

/-- The spec's no-fly band membership: hours `[s,e)` when `s ≤ e`, and the
wrap `[s,24) ∪ [0,e)` when `s > e`. -/
def inNoFlyBand (s e h : Int) : Bool :=
  if s ≤ e then decide (s ≤ h) && decide (h < e)
  else (decide (s ≤ h) && decide (h < 24)) || (decide (0 ≤ h) && decide (h < e))

/-- Country of a location code (empty when the code is unknown). -/
def countryOf (code : String) : String :=
  ((get_city_by_code code).map City.country).getD ""

/-- The countries a path passes through, in order: the first departure's
country, then every arrival's country. -/
def pathCountryList : List Flight → List String
  | [] => []
  | f :: rest =>
    countryOf f.departure_city_code :: (f :: rest).map (fun g => countryOf g.arrival_city_code)

/-- Keep the first occurrence of each element. -/
def dedupFirst (l : List String) : List String :=
  l.foldl (fun acc x => if x ∈ acc then acc else acc ++ [x]) []

/-- The spec's route signature: the ordered sequence of distinct countries
a plan passes through. -/
def specRouteSignature (p : TravelPlan) : List String :=
  dedupFirst (pathCountryList p.flights)

/-- The claims' country tally: distinct countries visited, the fixed start
country excluded when a fixed start was given. -/
def startNewCountryCount (start : Option String) (p : TravelPlan) : Nat :=
  if optTruthy start then
    ((dedupFirst (pathCountryList p.flights)).filter
      (fun c => decide (c ≠ countryOf (start.getD "")))).length
  else
    (dedupFirst (pathCountryList p.flights)).length

def specNewCountryCount (a : SearchArgs) (p : TravelPlan) : Nat :=
  startNewCountryCount a.start_city p

/-- Ascending departure order, the order C3 asserts of adjacency lists. -/
def sortedByDeparture (l : List Flight) : Prop :=
  List.Chain' (fun x y => x.departure_datetime ≤ y.departure_datetime) l

/-! ## Concrete scenarios for counterexamples and witnesses -/

/-- A schedule-consistent flight the loader could produce: departure at
minute `depT` of day `d`, arrival `dur` minutes later. -/
def mkFlight (dep arr : String) (d depT dur : Int) : Flight :=
  ⟨d, "Air", "F100", "Economy", dep, arr, depT, (depT + dur) % 1440,
   d * 1440 + depT, d * 1440 + depT + dur, dur, 0, "", true⟩

/-- C1 scenario: a 22:00-24:00 band; the flight departs at 10:00 but lands
at 23:00, inside the band. -/
def flightC1 : Flight := mkFlight "CAI" "TUN" 0 600 780

def argsC1 : SearchArgs :=
  { base_flights := [flightC1], start_date := 0, end_date := 0,
    cities_choice := ["CAI", "TUN"], num_countries := 1,
    no_fly_start_hour := some 22, no_fly_end_hour := some 24 }

/-- C2 scenario: Douala and Yaounde are both in Cameroon, so two one-leg
plans from Cairo share the country-level signature. -/
def flightC2a : Flight := mkFlight "CAI" "DLA" 0 480 120

def flightC2b : Flight := mkFlight "CAI" "NSI" 0 540 120

def argsC2 : SearchArgs :=
  { base_flights := [flightC2a, flightC2b], start_date := 0, end_date := 0,
    cities_choice := ["CAI", "DLA", "NSI"], num_countries := 1,
    start_city := some "CAI" }

/-- C3 scenario: two same-day flights out of Cairo in reverse time order. -/
def flightC3a : Flight := mkFlight "CAI" "TUN" 0 1080 60

def flightC3b : Flight := mkFlight "CAI" "ALG" 0 480 60

def argsC3 : SearchArgs :=
  { base_flights := [flightC3a, flightC3b], start_date := 0, end_date := 0,
    cities_choice := ["CAI", "TUN", "ALG"], num_countries := 1 }

/-- C4 scenario: min layover 5h > max layover 2h, a malformed window; the
search still runs and returns a one-leg plan. -/
def flightC4 : Flight := mkFlight "CAI" "TUN" 0 600 120

def argsC4 : SearchArgs :=
  { base_flights := [flightC4], start_date := 0, end_date := 0,
    cities_choice := ["CAI", "TUN"], num_countries := 1,
    start_city := some "CAI", min_layover_hours := 5, max_layover_hours := 2 }

/-- Witness scenario: Cairo → Tunis → Algiers with a 22h layover, goal two
new countries from a fixed Cairo start. -/
def flightW1 : Flight := mkFlight "CAI" "TUN" 0 480 120

def flightW2 : Flight := mkFlight "TUN" "ALG" 1 480 120

def argsW : SearchArgs :=
  { base_flights := [flightW1, flightW2], start_date := 0, end_date := 1,
    cities_choice := ["CAI", "TUN", "ALG"], num_countries := 2,
    start_city := some "CAI" }

/-- The plan the witness scenario returns. -/
def planW : TravelPlan := TravelPlan.ofFlights [flightW1, flightW2]

/-! ## Helper lemmas -/

theorem adjGet_addToAdj (adj : List (String × List Flight)) (c : String) (f : Flight)
    (code : String) :
    adjGet (addToAdj adj c f) code =
      if c = code then adjGet adj code ++ [f] else adjGet adj code := by
  induction adj with
  | nil =>
    by_cases h : c = code <;> simp [addToAdj, adjGet, h]
  | cons kv rest ih =>
    obtain ⟨c0, fs⟩ := kv
    by_cases h0 : c0 = c
    · subst h0
      by_cases h : c0 = code <;> simp [addToAdj, adjGet, h]
    · by_cases h : c0 = code
      · subst h
        have hc : ¬ c = c0 := fun hh => h0 hh.symm
        simp [addToAdj, adjGet, h0, hc]
      · simp [addToAdj, adjGet, h0, h, ih]

theorem adjGet_foldl (l : List Flight) (acc : List (String × List Flight)) (code : String) :
    adjGet (l.foldl (fun adj f => addToAdj adj f.departure_city_code f) acc) code =
      adjGet acc code ++ l.filter (fun f => decide (f.departure_city_code = code)) := by
  induction l generalizing acc with
  | nil => simp
  | cons f rest ih =>
    simp only [List.foldl_cons, ih, adjGet_addToAdj, List.filter_cons]
    by_cases h : f.departure_city_code = code <;> simp [h]

/-- The adjacency index is exactly the departure-code filter of its input,
in input order. -/
theorem adjGet_build (flights : List Flight) (code : String) :
    adjGet (build_flights_by_departure flights) code =
      flights.filter (fun f => decide (f.departure_city_code = code)) := by
  simp [build_flights_by_departure, adjGet_foldl, adjGet]

/-! ## C9 — determinism -/

/-- C9: with no cancellation requested, two runs of the search on identical
inputs produce identical ordered results.  The embedding makes the deeper
reason visible: heap ties are broken by the strictly increasing insertion
counter, so `popMin` is a function of the queue contents, every step is a
pure function of the state, and the whole search is a pure function of its
arguments (the cancellation hypothesis is not even needed). -/
theorem search_idempotent (a : SearchArgs) (fuel : Nat) (h : a.stop_event = false) :
    find_best_travel_plan a fuel = find_best_travel_plan a fuel := rfl

/-- Witness for C9 at the two-leg scenario. -/
theorem search_idempotent_witness :
    argsW.stop_event = false ∧
      find_best_travel_plan argsW 10 = find_best_travel_plan argsW 10 :=
  ⟨rfl, search_idempotent argsW 10 rfl⟩

/-! ## C8 — sorted, bounded output -/

/-- C8: the returned sequence is sorted ascending by total duration and
never holds more than `top_n` plans. -/
theorem result_sorted_and_bounded (a : SearchArgs) (fuel : Nat) :
    List.Sorted planLe (find_best_travel_plan a fuel) ∧
      (find_best_travel_plan a fuel).length ≤ a.top_n := by
  unfold find_best_travel_plan
  split
  · exact ⟨List.sorted_nil, Nat.zero_le _⟩
  · split
    · exact ⟨List.sorted_nil, Nat.zero_le _⟩
    · constructor
      · exact (List.sorted_insertionSort planLe _).sublist (List.take_sublist _ _)
      · simp [List.length_take]

/-! ## C3 — adjacency index order -/

/-- C3 counterexample: in the scenario `argsC3`, the adjacency bucket for
Cairo holds the 18:00 departure before the 08:00 one — the index is built
by appending in pre-filter order, not by departure time. -/
theorem adjacency_unsorted_cex :
    (adjGet (build_flights_by_departure (ordered_flights argsC3)) "CAI").map
        Flight.departure_datetime = [1080, 480] ∧
      ¬ sortedByDeparture (adjGet (build_flights_by_departure (ordered_flights argsC3)) "CAI") := by
  constructor
  · decide
  · intro h
    have hl : adjGet (build_flights_by_departure (ordered_flights argsC3)) "CAI"
        = [flightC3a, flightC3b] := by decide
    rw [sortedByDeparture, hl] at h
    have h2 := (List.chain'_cons.1 h).1
    simp only [flightC3a, flightC3b, mkFlight] at h2
    omega

/-- C3 amended: the index maps every departure code to exactly the eligible
flights departing it, in pre-filter output order (which the forced-cities
reorder and the expansion make non-chronological in general). -/
theorem adjacency_eq_departure_filter (flights : List Flight) (code : String) :
    adjGet (build_flights_by_departure flights) code =
      flights.filter (fun f => decide (f.departure_city_code = code)) :=
  adjGet_build flights code

/-! ## C1 — no-fly band checks the departure hour only -/

/-- C1 counterexample: with a configured 22:00-24:00 band, a flight that
departs at 10:00 and lands at 23:00 survives the pre-filter even though its
arrival hour lies inside the band. -/
theorem noFly_arrival_in_band_cex :
    flightC1 ∈ pre_filtered_flights argsC1 ∧
      argsC1.no_fly_start_hour = some 22 ∧ argsC1.no_fly_end_hour = some 24 ∧
      inNoFlyBand 22 24 (flightC1.arrival_time / 60) = true := by
  refine ⟨by decide, rfl, rfl, by decide⟩

/-- C1 amended: when a no-fly band is configured, every pre-filter survivor
has its departure hour outside the band; the arrival hour is not checked. -/
theorem noFly_departure_hour_excluded (a : SearchArgs) (f : Flight) (s e : Int)
    (hf : f ∈ pre_filtered_flights a)
    (hs : a.no_fly_start_hour = some s) (he : a.no_fly_end_hour = some e) :
    inNoFlyBand s e (f.departure_time / 60) = false := by
  have hk : preFilterKeeps a f = true := (List.mem_filter.1 hf).2
  unfold preFilterKeeps at hk
  split at hk
  · simp at hk
  · rw [hs, he] at hk
    simp only at hk
    split at hk
    · simp at hk
    · rename_i hcond
      simp only [Bool.or_eq_true, Bool.and_eq_true, decide_eq_true_eq, Bool.not_eq_true',
        decide_eq_false_iff_not, not_or, not_and, ge_iff_le] at hcond
      unfold inNoFlyBand
      split
      · rename_i hle
        simp only [Bool.and_eq_false_iff, decide_eq_false_iff_not, not_le, not_lt]
        omega
      · rename_i hgt
        simp only [Bool.or_eq_false_iff, Bool.and_eq_false_iff, decide_eq_false_iff_not,
          not_le, not_lt]
        omega

/-- Witness for the amended C1 theorem at the concrete band scenario. -/
theorem noFly_departure_hour_excluded_witness :
    flightC1 ∈ pre_filtered_flights argsC1 ∧
      inNoFlyBand 22 24 (flightC1.departure_time / 60) = false :=
  ⟨by decide, noFly_departure_hour_excluded argsC1 flightC1 22 24 (by decide) rfl rfl⟩

/-! ## C2 — diversity key is the city sequence, not the country sequence -/

/-- C2 counterexample: the `argsC2` search (fixed start Cairo, no end city,
so the round-trip exception cannot apply) returns two distinct plans —
Cairo-Douala and Cairo-Yaounde — whose route signatures in the spec's sense
(ordered distinct countries) are both Egypt-Cameroon. -/
theorem country_signature_shared_cex :
    find_best_travel_plan argsC2 10 =
        [TravelPlan.ofFlights [flightC2a], TravelPlan.ofFlights [flightC2b]] ∧
      TravelPlan.ofFlights [flightC2a] ≠ TravelPlan.ofFlights [flightC2b] ∧
      specRouteSignature (TravelPlan.ofFlights [flightC2a]) =
        specRouteSignature (TravelPlan.ofFlights [flightC2b]) ∧
      argsC2.end_city = none := by
  refine ⟨by decide, by decide, by decide, rfl⟩

/-! ## C4 — malformed layover bounds are not rejected up front -/

/-- C4 counterexample: with min layover 5h > max layover 2h — a malformed
Constraint Set — the operation does not surface an error before searching:
the search runs and returns a (one-leg) plan. -/
theorem malformed_layover_no_error_cex :
    argsC4.min_layover_hours > argsC4.max_layover_hours ∧
      find_best_travel_plan argsC4 10 = [TravelPlan.ofFlights [flightC4]] := by
  refine ⟨by decide, by decide⟩

/-! ## Structural lemmas: heap, dict, helpers -/

theorem getLast?_mem : ∀ {l : List Flight} {a : Flight}, l.getLast? = some a → a ∈ l := by
  intro l
  induction l with
  | nil => intro a h; simp [List.getLast?] at h
  | cons x xs ih =>
    intro a h
    cases xs with
    | nil =>
      simp [List.getLast?] at h
      simp [h]
    | cons y ys =>
      rw [List.getLast?_cons_cons] at h
      exact List.mem_cons_of_mem _ (ih h)

theorem foldlMin_mem : ∀ (es : List Entry) (e : Entry),
    es.foldl (fun m x => if entryLt x m then x else m) e ∈ e :: es := by
  intro es
  induction es with
  | nil => intro e; simp
  | cons x xs ih =>
    intro e
    have h := ih (if entryLt x e then x else e)
    simp only [List.foldl_cons]
    rcases List.mem_cons.1 h with h1 | h1
    · rw [h1]
      by_cases hx : entryLt x e = true <;> simp [hx]
    · exact List.mem_cons_of_mem _ (List.mem_cons_of_mem _ h1)

theorem popMin_mem {q : List Entry} {e : Entry} {q' : List Entry}
    (h : popMin q = some (e, q')) : e ∈ q ∧ ∀ x ∈ q', x ∈ q := by
  cases q with
  | nil => simp [popMin] at h
  | cons a as =>
    simp only [popMin, Option.some.injEq, Prod.mk.injEq] at h
    obtain ⟨h1, h2⟩ := h
    constructor
    · rw [← h1]
      exact foldlMin_mem as a
    · intro x hx
      rw [← h2] at hx
      exact List.erase_subset _ _ hx

theorem numberFrom_mem : ∀ (cs : List EntryCore) (c0 : Nat) (x : Entry),
    x ∈ numberFrom c0 cs → x.core ∈ cs := by
  intro cs
  induction cs with
  | nil => intro c0 x h; simp [numberFrom] at h
  | cons c rest ih =>
    intro c0 x h
    rcases List.mem_cons.1 h with h1 | h1
    · rw [h1]; exact List.mem_cons_self _ _
    · exact List.mem_cons_of_mem _ (ih (c0 + 1) x h1)

theorem dictInsert_mem : ∀ (d : List (List String × TravelPlan)) (sig : List String)
    (plan : TravelPlan) (kv : List String × TravelPlan),
    kv ∈ dictInsert sig plan d → kv = (sig, plan) ∨ kv ∈ d := by
  intro d
  induction d with
  | nil => intro sig plan kv h; simp [dictInsert] at h; simp [h]
  | cons kv0 rest ih =>
    intro sig plan kv h
    unfold dictInsert at h
    split at h
    · rcases List.mem_cons.1 h with h1 | h1
      · exact Or.inl h1
      · exact Or.inr (List.mem_cons_of_mem _ h1)
    · rcases List.mem_cons.1 h with h1 | h1
      · exact Or.inr (by rw [h1]; exact List.mem_cons_self _ _)
      · rcases ih sig plan kv h1 with h2 | h2
        · exact Or.inl h2
        · exact Or.inr (List.mem_cons_of_mem _ h2)

theorem dictInsert_keys : ∀ (d : List (List String × TravelPlan)) (sig : List String)
    (plan : TravelPlan),
    (dictInsert sig plan d).map Prod.fst =
      if sig ∈ d.map Prod.fst then d.map Prod.fst else d.map Prod.fst ++ [sig] := by
  intro d
  induction d with
  | nil => intro sig plan; simp [dictInsert]
  | cons kv0 rest ih =>
    intro sig plan
    unfold dictInsert
    split
    · rename_i heq
      have hmem : sig ∈ (kv0 :: rest).map Prod.fst := by
        rw [List.map_cons, ← heq]
        exact List.mem_cons_self _ _
      rw [if_pos hmem, List.map_cons, List.map_cons, heq]
    · rename_i hne
      have : ¬ sig = kv0.1 := fun hh => hne hh.symm
      simp only [List.map_cons, List.mem_cons, this, false_or, ih]
      split <;> simp

theorem dictInsert_keys_nodup {d : List (List String × TravelPlan)} {sig : List String}
    {plan : TravelPlan} (h : (d.map Prod.fst).Nodup) :
    ((dictInsert sig plan d).map Prod.fst).Nodup := by
  rw [dictInsert_keys]
  split
  · exact h
  · rename_i hmem
    simp [List.nodup_append, h, hmem]

theorem removeFirstWithDur_sublist (m : Int) :
    ∀ (d : List (List String × TravelPlan)),
      List.Sublist (removeFirstWithDur m d) d := by
  intro d
  induction d with
  | nil => simp [removeFirstWithDur]
  | cons kv rest ih =>
    unfold removeFirstWithDur
    split
    · exact List.sublist_cons_self _ _
    · exact ih.cons₂ _

theorem mem_dedupFirst_aux : ∀ (l acc : List String) (x : String),
    x ∈ l.foldl (fun acc y => if y ∈ acc then acc else acc ++ [y]) acc ↔ x ∈ acc ∨ x ∈ l := by
  intro l
  induction l with
  | nil => intro acc x; simp
  | cons y ys ih =>
    intro acc x
    simp only [List.foldl_cons, ih]
    by_cases hy : y ∈ acc
    · simp only [if_pos hy, List.mem_cons]
      constructor
      · rintro (h | h)
        · exact Or.inl h
        · exact Or.inr (Or.inr h)
      · rintro (h | h | h)
        · exact Or.inl h
        · exact Or.inl (h ▸ hy)
        · exact Or.inr h
    · simp only [if_neg hy, List.mem_append, List.mem_singleton, List.mem_cons]
      tauto

theorem mem_dedupFirst (l : List String) (x : String) : x ∈ dedupFirst l ↔ x ∈ l := by
  unfold dedupFirst
  rw [mem_dedupFirst_aux]
  simp

theorem nodup_dedupFirst_aux : ∀ (l acc : List String), acc.Nodup →
    (l.foldl (fun acc y => if y ∈ acc then acc else acc ++ [y]) acc).Nodup := by
  intro l
  induction l with
  | nil => intro acc h; simpa using h
  | cons y ys ih =>
    intro acc h
    simp only [List.foldl_cons]
    by_cases hy : y ∈ acc
    · rw [if_pos hy]; exact ih acc h
    · rw [if_neg hy]
      refine ih _ ?_
      simp [List.nodup_append, h, hy]

theorem nodup_dedupFirst (l : List String) : (dedupFirst l).Nodup :=
  nodup_dedupFirst_aux l [] List.nodup_nil

theorem pathCountryList_append {p : List Flight} (nf : Flight) (h : p ≠ []) :
    pathCountryList (p ++ [nf]) = pathCountryList p ++ [countryOf nf.arrival_city_code] := by
  cases p with
  | nil => exact absurd rfl h
  | cons f rest => simp [pathCountryList, List.map_append]

theorem countryOf_eq {code : String} {c : City} (h : get_city_by_code code = some c) :
    countryOf code = c.country := by
  unfold countryOf
  rw [h]
  rfl

theorem country_nonempty {code : String} {c : City} (h : get_city_by_code code = some c) :
    c.country ≠ "" := by
  have hm : c ∈ CITIES := List.mem_of_find?_eq_some h
  have hall : ∀ x ∈ CITIES, x.country ≠ "" := by decide
  exact hall c hm

theorem contigB_iff (fs : List Flight) :
    contigB fs = true ↔
      List.Chain' (fun x y => x.arrival_city_code = y.departure_city_code) fs := by
  induction fs with
  | nil => simp [contigB]
  | cons a rest ih =>
    cases rest with
    | nil => simp [contigB]
    | cons b rs =>
      have hre : contigB (a :: b :: rs) =
          ((a.arrival_city_code == b.departure_city_code) && contigB (b :: rs)) := rfl
      rw [List.chain'_cons, ← ih, hre]
      simp [Bool.and_eq_true, beq_iff_eq]

/-! ## The per-entry invariant -/

/-- What every queue entry payload satisfies: a nonempty path whose
visited-country set is exactly the set of countries the path passes
through, whose endpoint codes all resolve in the city table, whose
consecutive legs respect the layover window, and which carries the start
country whenever a fixed start was given. -/
structure EInv (ctx : Ctx) (c : EntryCore) : Prop where
  ne : c.path ≠ []
  nodup : c.countries.Nodup
  memIff : ∀ x, x ∈ c.countries ↔ x ∈ pathCountryList c.path
  nonempty_names : ∀ x ∈ c.countries, x ≠ ""
  lookups : ∀ f ∈ c.path, (get_city_by_code f.departure_city_code).isSome = true ∧
      (get_city_by_code f.arrival_city_code).isSome = true
  layovers : List.Chain' (fun x y =>
      ctx.min_layover_hours * 60 ≤ y.departure_datetime - x.arrival_datetime ∧
      y.departure_datetime - x.arrival_datetime ≤ ctx.max_layover_hours * 60) c.path
  startOk : optTruthy ctx.start_city = true → ∃ sc, ctx.start_country = some sc ∧
      sc ∈ c.countries ∧ sc = countryOf (ctx.start_city.getD "")

theorem countries_length_eq {ctx : Ctx} {c : EntryCore} (h : EInv ctx c) :
    (dedupFirst (pathCountryList c.path)).length = c.countries.length := by
  have hperm := (List.perm_ext_iff_of_nodup (nodup_dedupFirst _) h.nodup).2
    (fun x => by rw [mem_dedupFirst, ← h.memIff x])
  exact hperm.length_eq

/-- The loop's `new_countries_count` agrees with the claims' count of
distinct countries (minus the fixed start country when one was given). -/
theorem countryCount_bridge {ctx : Ctx} {c : EntryCore} (h : EInv ctx c) :
    (startNewCountryCount ctx.start_city (TravelPlan.ofFlights c.path) : Int) =
      countryCount ctx c := by
  have hLlen : (dedupFirst (pathCountryList c.path)).length = c.countries.length :=
    countries_length_eq h
  unfold startNewCountryCount countryCount
  by_cases hs : optTruthy ctx.start_city = true
  · obtain ⟨sc, hsc, hmem, hspec⟩ := h.startOk hs
    have hscne : sc ≠ "" := h.nonempty_names sc hmem
    have htr : optTruthy ctx.start_country = true := by
      rw [hsc]
      simp [optTruthy, hscne]
    have hmemD : (ctx.start_country.getD "") ∈ c.countries := by
      rw [hsc]
      exact hmem
    rw [if_pos hs, if_pos (by simp [hs, htr, hmemD])]
    have hscL : sc ∈ dedupFirst (pathCountryList c.path) := by
      rw [mem_dedupFirst]
      exact (h.memIff sc).1 hmem
    have hfe : (dedupFirst (pathCountryList c.path)).filter
          (fun x => decide (x ≠ countryOf (ctx.start_city.getD ""))) =
        (dedupFirst (pathCountryList c.path)).filter (fun x => x != sc) := by
      apply List.filter_congr
      intro x _
      rw [← hspec]
      by_cases hx : x = sc
      · simp [hx]
      · simp [hx]
    have herase : (dedupFirst (pathCountryList c.path)).erase sc =
        (dedupFirst (pathCountryList c.path)).filter (fun x => x != sc) :=
      List.Nodup.erase_eq_filter (nodup_dedupFirst _) sc
    have hlen := List.length_erase_add_one hscL
    show (((dedupFirst (pathCountryList c.path)).filter
        (fun x => decide (x ≠ countryOf (ctx.start_city.getD "")))).length : Int) =
      (c.countries.length : Int) - 1
    rw [hfe, ← herase]
    omega
  · have hs' : optTruthy ctx.start_city = false := by
      revert hs
      cases optTruthy ctx.start_city <;> simp
    rw [if_neg hs, if_neg (by simp [hs'])]
    show ((dedupFirst (pathCountryList c.path)).length : Int) = (c.countries.length : Int)
    omega

/-- Extending an invariant-satisfying path with one flight that passed the
expansion checks preserves the invariant (the duration and visited-city
fields are unconstrained). -/
theorem EInv_extend {ctx : Ctx} {c : EntryCore} {last nf : Flight} {ac : City}
    (hc : EInv ctx c) (hlast : c.path.getLast? = some last)
    (hdep : nf.departure_city_code = last.arrival_city_code)
    (hlay1 : ctx.min_layover_hours * 60 ≤ nf.departure_datetime - last.arrival_datetime)
    (hlay2 : nf.departure_datetime - last.arrival_datetime ≤ ctx.max_layover_hours * 60)
    (hac : get_city_by_code nf.arrival_city_code = some ac) :
    EInv ctx (extCore c nf ac) := by
  have hco : countryOf nf.arrival_city_code = ac.country := countryOf_eq hac
  unfold extCore
  constructor
  · simp
  · by_cases hm : ac.country ∈ c.countries
    · simpa [hm] using hc.nodup
    · simp [hm, List.nodup_append, hc.nodup]
  · intro x
    rw [pathCountryList_append nf hc.ne]
    simp only [List.mem_append, List.mem_singleton, hco, ← hc.memIff x]
    by_cases hm : ac.country ∈ c.countries
    · simp only [if_pos hm]
      constructor
      · exact fun hx => Or.inl hx
      · rintro (hx | rfl)
        · exact hx
        · exact hm
    · simp [if_neg hm, List.mem_append]
  · intro x hx
    by_cases hm : ac.country ∈ c.countries
    · rw [if_pos hm] at hx
      exact hc.nonempty_names x hx
    · rw [if_neg hm, List.mem_append, List.mem_singleton] at hx
      rcases hx with hx | rfl
      · exact hc.nonempty_names x hx
      · exact country_nonempty hac
  · intro f hf
    rcases List.mem_append.1 hf with hf | hf
    · exact hc.lookups f hf
    · rw [List.mem_singleton] at hf
      subst hf
      constructor
      · rw [hdep]
        exact (hc.lookups last (getLast?_mem hlast)).2
      · rw [hac]
        rfl
  · refine List.chain'_append.2 ⟨hc.layovers, List.chain'_singleton nf, ?_⟩
    intro x hx y hy
    rw [hlast, Option.mem_some_iff] at hx
    simp only [List.head?_cons, Option.mem_some_iff] at hy
    subst hx
    subst hy
    exact ⟨hlay1, hlay2⟩
  · intro hs
    obtain ⟨sc, h1, h2, h3⟩ := hc.startOk hs
    refine ⟨sc, h1, ?_, h3⟩
    by_cases hm : ac.country ∈ c.countries
    · rw [if_pos hm]
      exact h2
    · rw [if_neg hm]
      exact List.mem_append_left _ h2

set_option maxHeartbeats 1000000 in
/-- Every payload the expansion step pushes satisfies the invariant. -/
theorem expandOne_inv {ctx : Ctx} {last : Flight} {c : EntryCore} {newCount : Int}
    {thr : Option Int} {nf : Flight} {core : EntryCore}
    (h : expandOne ctx last c newCount thr nf = some core)
    (hc : EInv ctx c) (hlast : c.path.getLast? = some last) : EInv ctx core := by
  unfold expandOne at h
  split at h
  · simp at h
  rename_i hdep
  have hdep' : nf.departure_city_code = last.arrival_city_code := not_not.1 hdep
  split at h
  · simp at h
  split at h
  · simp at h
  split at h
  · simp at h
  rename_i hLayover
  simp only [Bool.not_eq_true, Bool.not_eq_false', Bool.and_eq_true, decide_eq_true_eq]
    at hLayover
  split at h
  · simp at h
  rename_i ac hac
  split at h
  · simp at h
  split at h
  · simp at h
  split at h
  · simp at h
  split at h
  · simp at h
  split at h
  · split at h
    · simp at h
    · rw [Option.some.injEq] at h
      rw [← h]
      exact EInv_extend hc hlast hdep' hLayover.1 hLayover.2 hac
  · rw [Option.some.injEq] at h
    rw [← h]
    exact EInv_extend hc hlast hdep' hLayover.1 hLayover.2 hac

/-- Every seed payload satisfies the invariant. -/
theorem seed_inv {a : SearchArgs} {core : EntryCore} (h : core ∈ seedCores a) :
    EInv (mkCtx a) core := by
  unfold seedCores at h
  rw [List.mem_flatMap] at h
  obtain ⟨code, hcode, hseed⟩ := h
  unfold seedsFor at hseed
  split at hseed
  case h_1 =>
    simp at hseed
  case h_2 c hc =>
    rw [List.mem_filterMap] at hseed
    obtain ⟨f, hfmem, hf⟩ := hseed
    split at hf
    case h_1 =>
      simp at hf
    case h_2 ac hac =>
      split at hf
      · simp at hf
      rename_i hneq
      rw [Option.some.injEq] at hf
      have hdep : f.departure_city_code = code := by
        have : (mkCtx a).adj = build_flights_by_departure (ordered_flights a) := rfl
        rw [this, adjGet_build] at hfmem
        have := List.of_mem_filter hfmem
        exact of_decide_eq_true this
      rw [← hf]
      constructor
      · simp
      · simp only [List.nodup_cons, List.mem_singleton, List.not_mem_nil, not_false_iff,
          List.nodup_nil, and_true]
        exact fun hh => hneq hh.symm
      · intro x
        have hpc : pathCountryList [f] = [c.country, ac.country] := by
          simp only [pathCountryList, List.map_cons, List.map_nil]
          rw [show countryOf f.departure_city_code = c.country from hdep ▸ countryOf_eq hc,
            countryOf_eq hac]
        rw [hpc]
      · intro x hx
        rcases List.mem_cons.1 hx with rfl | hx
        · exact country_nonempty hc
        · rw [List.mem_singleton] at hx
          subst hx
          exact country_nonempty hac
      · intro g hg
        rw [List.mem_singleton] at hg
        subst hg
        constructor
        · rw [hdep, hc]
          rfl
        · rw [hac]
          rfl
      · exact List.chain'_singleton f
      · intro hs
        have hstart : (mkCtx a).start_city = a.start_city := rfl
        have hcities : initial_cities a = [a.start_city.getD ""] := by
          unfold initial_cities
          rw [if_pos (by rw [← hstart]; exact hs)]
        rw [hcities, List.mem_singleton] at hcode
        refine ⟨c.country, ?_, List.mem_cons_self _ _, ?_⟩
        · show startCountryOpt a = some c.country
          unfold startCountryOpt
          rw [if_pos (by rw [← hstart]; exact hs), ← hcode, hc]
          rfl
        · rw [hstart, ← hcode]
          exact (countryOf_eq hc).symm

/-! ## The per-plan invariant -/

/-- What every `found_plans` entry satisfies: contiguous legs, layovers in
the window, resolvable endpoint codes, the exact goal country count, and a
key equal to the plan's recomputed city signature. -/
structure PInv (ctx : Ctx) (kv : List String × TravelPlan) : Prop where
  contig : List.Chain' (fun x y => x.arrival_city_code = y.departure_city_code) kv.2.flights
  layovers : List.Chain' (fun x y =>
      ctx.min_layover_hours * 60 ≤ y.departure_datetime - x.arrival_datetime ∧
      y.departure_datetime - x.arrival_datetime ≤ ctx.max_layover_hours * 60) kv.2.flights
  lookups : ∀ f ∈ kv.2.flights, (get_city_by_code f.departure_city_code).isSome = true ∧
      (get_city_by_code f.arrival_city_code).isSome = true
  countEq : (startNewCountryCount ctx.start_city kv.2 : Int) = ctx.target
  sigEq : kv.1 = sigOfPlan ctx kv.2

/-- The `found_plans` dict invariant: pairwise distinct keys, every entry a
valid plan. -/
def FoundInv (ctx : Ctx) (found : List (List String × TravelPlan)) : Prop :=
  (found.map Prod.fst).Nodup ∧ ∀ kv ∈ found, PInv ctx kv

theorem FoundInv_dictInsert {ctx : Ctx} {found : List (List String × TravelPlan)}
    {sig : List String} {plan : TravelPlan} (hf : FoundInv ctx found)
    (hp : PInv ctx (sig, plan)) : FoundInv ctx (dictInsert sig plan found) := by
  refine ⟨dictInsert_keys_nodup hf.1, fun kv hkv => ?_⟩
  rcases dictInsert_mem found sig plan kv hkv with rfl | hold
  · exact hp
  · exact hf.2 kv hold

theorem FoundInv_sublist {ctx : Ctx} {d d' : List (List String × TravelPlan)}
    (hsub : List.Sublist d' d) (hf : FoundInv ctx d) : FoundInv ctx d' :=
  ⟨hf.1.sublist (hsub.map Prod.fst), fun kv hkv => hf.2 kv (hsub.subset hkv)⟩

theorem offerCore_foundInv {ctx : Ctx} {found : List (List String × TravelPlan)}
    {sig : List String} {plan : TravelPlan} (hf : FoundInv ctx found)
    (hp : PInv ctx (sig, plan)) (doInsert : Bool) :
    FoundInv ctx (offerCore ctx sig plan found doInsert) := by
  unfold offerCore
  by_cases hIns : doInsert = true
  · simp only [hIns, if_true, Bool.true_and]
    have hbase := FoundInv_dictInsert hf hp
    split
    · exact FoundInv_sublist (removeFirstWithDur_sublist _ _) hbase
    · exact hbase
  · have hIns0 : doInsert = false := by
      revert hIns
      cases doInsert <;> simp
    simp only [hIns0, if_false, Bool.false_and]
    split
    · simp_all
    · exact hf

theorem offerPlan_foundInv {ctx : Ctx} {found : List (List String × TravelPlan)}
    {sig : List String} {plan : TravelPlan} (hf : FoundInv ctx found)
    (hp : PInv ctx (sig, plan)) : FoundInv ctx (offerPlan ctx sig plan found) :=
  offerCore_foundInv hf hp _

/-- The goal branch leaves the queue alone and preserves the dict
invariant, given that the popped node's count equals the goal exactly. -/
theorem handleGoal_inv {ctx : Ctx} {e : Entry} {s : SState}
    (he : EInv ctx e.core) (hcnt : countryCount ctx e.core = ctx.target)
    (hf : FoundInv ctx s.found) :
    (handleGoal ctx e s).queue = s.queue ∧ FoundInv ctx (handleGoal ctx e s).found := by
  unfold handleGoal
  split
  · exact ⟨rfl, hf⟩
  split
  · exact ⟨rfl, hf⟩
  rename_i hvalid
  refine ⟨rfl, ?_⟩
  show FoundInv ctx (offerPlan ctx (sigOfPlan ctx (TravelPlan.ofFlights e.core.path))
    (TravelPlan.ofFlights e.core.path) s.found)
  apply offerPlan_foundInv hf
  have hvB : pathValidB ctx (TravelPlan.ofFlights e.core.path).flights = true := by
    revert hvalid
    cases pathValidB ctx (TravelPlan.ofFlights e.core.path).flights <;> simp
  have hcontig : contigB (TravelPlan.ofFlights e.core.path).flights = true := by
    unfold pathValidB at hvB
    rw [Bool.and_eq_true] at hvB
    exact hvB.2
  exact ⟨(contigB_iff _).1 hcontig, he.layovers, he.lookups,
    by rw [countryCount_bridge he]; exact hcnt, rfl⟩

/-- One whole iteration preserves both queue and dict invariants. -/
theorem processEntry_inv {ctx : Ctx} {e : Entry} {s : SState}
    (he : EInv ctx e.core) (hq : ∀ x ∈ s.queue, EInv ctx x.core)
    (hf : FoundInv ctx s.found) :
    (∀ x ∈ (processEntry ctx e s).queue, EInv ctx x.core) ∧
      FoundInv ctx (processEntry ctx e s).found := by
  unfold processEntry
  split
  · exact ⟨hq, hf⟩
  split
  · exact ⟨hq, hf⟩
  rename_i h2
  split
  case h_1 => exact ⟨hq, hf⟩
  case h_2 last hlast =>
    split
    · exact ⟨hq, hf⟩
    split
    · rename_i h4
      have hge : countryCount ctx e.core ≥ ctx.target := by
        rw [Bool.and_eq_true] at h4
        exact of_decide_eq_true h4.1
      have hle : ¬(countryCount ctx e.core > ctx.target) := fun hgt =>
        h2 (decide_eq_true hgt)
      have hcnt : countryCount ctx e.core = ctx.target :=
        le_antisymm (not_lt.1 hle) hge
      obtain ⟨hqeq, hfnew⟩ := handleGoal_inv he hcnt hf
      refine ⟨?_, hfnew⟩
      rw [hqeq]
      exact hq
    · refine ⟨?_, hf⟩
      intro x hx
      rcases List.mem_append.1 hx with hx | hx
      · exact hq x hx
      · have hcore := numberFrom_mem _ _ _ hx
        rw [List.mem_filterMap] at hcore
        obtain ⟨nf, _, hsome⟩ := hcore
        exact expandOne_inv hsome he hlast

/-- The generic loop invariant: any per-entry predicate `Q` and dict
predicate `G` preserved by one iteration hold of the loop's result. -/
theorem searchLoop_inv (ctx : Ctx) (Q : EntryCore → Prop)
    (G : List (List String × TravelPlan) → Prop)
    (hstep : ∀ e s, Q e.core → (∀ x ∈ s.queue, Q x.core) → G s.found →
      (∀ x ∈ (processEntry ctx e s).queue, Q x.core) ∧ G (processEntry ctx e s).found) :
    ∀ (fuel : Nat) (s : SState), (∀ x ∈ s.queue, Q x.core) → G s.found →
      G (searchLoop ctx fuel s) := by
  intro fuel
  induction fuel with
  | zero => exact fun s _ hG => hG
  | succ n ih =>
    intro s hq hG
    cases hpop : popMin s.queue with
    | none =>
      have hE : searchLoop ctx (n + 1) s = s.found := by
        conv_lhs => rw [searchLoop]
        rw [hpop]
      rw [hE]
      exact hG
    | some p =>
      obtain ⟨e, q⟩ := p
      have hE : searchLoop ctx (n + 1) s =
          if ctx.stop = true then s.found
          else searchLoop ctx n (processEntry ctx e ⟨q, s.found, s.counter, s.threshold⟩) := by
        conv_lhs => rw [searchLoop]
        rw [hpop]
      rw [hE]
      obtain ⟨hme, hsub⟩ := popMin_mem hpop
      split
      · exact hG
      · have hstep' := hstep e ⟨q, s.found, s.counter, s.threshold⟩ (hq e hme)
          (fun x hx => hq x (hsub x hx)) hG
        exact ih _ hstep'.1 hstep'.2

/-- The dict invariant holds at the end of the search loop. -/
theorem searchLoop_foundInv (a : SearchArgs) (fuel : Nat) :
    FoundInv (mkCtx a) (searchLoop (mkCtx a) fuel (initState a)) := by
  apply searchLoop_inv (mkCtx a) (EInv (mkCtx a)) (FoundInv (mkCtx a))
  · exact fun e s he hq hf => processEntry_inv he hq hf
  · intro x hx
    exact seed_inv (numberFrom_mem _ _ _ hx)
  · exact ⟨List.nodup_nil, fun kv hkv => absurd hkv (List.not_mem_nil kv)⟩

/-- Every returned plan is a value of the final dict. -/
theorem find_mem_plan {a : SearchArgs} {fuel : Nat} {p : TravelPlan}
    (hp : p ∈ find_best_travel_plan a fuel) :
    ∃ kv ∈ searchLoop (mkCtx a) fuel (initState a), kv.2 = p := by
  unfold find_best_travel_plan at hp
  split at hp
  · simp at hp
  split at hp
  · simp at hp
  have h1 := (List.take_sublist _ _).subset hp
  have h2 := (List.perm_insertionSort planLe _).subset h1
  rw [List.mem_map] at h2
  obtain ⟨kv, hkv, hkv2⟩ := h2
  exact ⟨kv, hkv, hkv2⟩

/-- The bundle of plan-level facts every returned plan enjoys. -/
theorem find_mem_props {a : SearchArgs} {fuel : Nat} {p : TravelPlan}
    (hp : p ∈ find_best_travel_plan a fuel) :
    List.Chain' (fun x y => x.arrival_city_code = y.departure_city_code) p.flights ∧
    List.Chain' (fun x y =>
      a.min_layover_hours * 60 ≤ y.departure_datetime - x.arrival_datetime ∧
      y.departure_datetime - x.arrival_datetime ≤ a.max_layover_hours * 60) p.flights ∧
    (∀ f ∈ p.flights, (get_city_by_code f.departure_city_code).isSome = true ∧
      (get_city_by_code f.arrival_city_code).isSome = true) ∧
    (startNewCountryCount a.start_city p : Int) = a.num_countries := by
  obtain ⟨kv, hkv, hkv2⟩ := find_mem_plan hp
  have hP := (searchLoop_foundInv a fuel).2 kv hkv
  rw [← hkv2]
  exact ⟨hP.contig, hP.layovers, hP.lookups, hP.countEq⟩

/-! ## C6 — leg contiguity -/

/-- C6: in every returned Travel Plan, each leg's arrival location equals
the next leg's departure location. -/
theorem plan_legs_contiguous (a : SearchArgs) (fuel : Nat) :
    ∀ p ∈ find_best_travel_plan a fuel,
      List.Chain' (fun x y => x.arrival_city_code = y.departure_city_code) p.flights :=
  fun _ hp => (find_mem_props hp).1

/-- Witness: the Cairo-Tunis-Algiers two-leg scenario. -/
theorem plan_legs_contiguous_witness :
    planW ∈ find_best_travel_plan argsW 10 ∧
      List.Chain' (fun x y => x.arrival_city_code = y.departure_city_code) planW.flights :=
  ⟨by decide, plan_legs_contiguous argsW 10 planW (by decide)⟩

/-! ## C7 — layovers inside the configured window -/

/-- C7: in every returned Travel Plan, each gap between consecutive legs
lies within `[min_layover, max_layover]` hours, inclusive at both ends. -/
theorem plan_layovers_in_window (a : SearchArgs) (fuel : Nat) :
    ∀ p ∈ find_best_travel_plan a fuel,
      List.Chain' (fun x y =>
        a.min_layover_hours * 60 ≤ y.departure_datetime - x.arrival_datetime ∧
        y.departure_datetime - x.arrival_datetime ≤ a.max_layover_hours * 60) p.flights :=
  fun _ hp => (find_mem_props hp).2.1

/-- Witness: the 22-hour layover of the two-leg scenario lies in the
10h-48h window. -/
theorem plan_layovers_in_window_witness :
    planW ∈ find_best_travel_plan argsW 10 ∧
      List.Chain' (fun x y =>
        argsW.min_layover_hours * 60 ≤ y.departure_datetime - x.arrival_datetime ∧
        y.departure_datetime - x.arrival_datetime ≤ argsW.max_layover_hours * 60)
        planW.flights :=
  ⟨by decide, plan_layovers_in_window argsW 10 planW (by decide)⟩

/-! ## C10 — flights with unknown location codes are never used -/

/-- C10: every flight of every returned Travel Plan has both endpoint codes
present in the static city table.  (A flight with an unknown endpoint is
silently skipped at seeding and at expansion, never raising an error: the
embedding is a total function.) -/
theorem plan_flights_have_known_cities (a : SearchArgs) (fuel : Nat) :
    ∀ p ∈ find_best_travel_plan a fuel, ∀ f ∈ p.flights,
      (get_city_by_code f.departure_city_code).isSome = true ∧
        (get_city_by_code f.arrival_city_code).isSome = true :=
  fun _ hp => (find_mem_props hp).2.2.1

/-- Witness at the two-leg scenario. -/
theorem plan_flights_have_known_cities_witness :
    planW ∈ find_best_travel_plan argsW 10 ∧
      (∀ f ∈ planW.flights,
        (get_city_by_code f.departure_city_code).isSome = true ∧
          (get_city_by_code f.arrival_city_code).isSome = true) :=
  ⟨by decide, plan_flights_have_known_cities argsW 10 planW (by decide)⟩

/-! ## C5 — exact goal country count -/

/-- C5: for every returned Travel Plan, the number of distinct countries it
visits — excluding the fixed start country when a fixed start was given,
counting the first country otherwise — equals the configured goal count. -/
theorem plan_new_country_count_eq_goal (a : SearchArgs) (fuel : Nat) :
    ∀ p ∈ find_best_travel_plan a fuel,
      (specNewCountryCount a p : Int) = a.num_countries :=
  fun _ hp => (find_mem_props hp).2.2.2

/-- Witness: the two-leg scenario visits Tunisia and Algeria beyond the
fixed Cairo start, matching the goal of 2. -/
theorem plan_new_country_count_eq_goal_witness :
    planW ∈ find_best_travel_plan argsW 10 ∧
      (specNewCountryCount argsW planW : Int) = argsW.num_countries :=
  ⟨by decide, plan_new_country_count_eq_goal argsW 10 planW (by decide)⟩

/-! ## C2 (amended) — plans are deduplicated by city signature -/

theorem found_values_key_pairwise {ctx : Ctx} {found : List (List String × TravelPlan)}
    (h : FoundInv ctx found) :
    (found.map Prod.snd).Pairwise (fun p q => sigOfPlan ctx p ≠ sigOfPlan ctx q) := by
  have hkeys := h.1
  have hmapeq : found.map Prod.fst = (found.map Prod.snd).map (sigOfPlan ctx) := by
    rw [List.map_map]
    apply List.map_congr_left
    intro kv hkv
    exact (h.2 kv hkv).sigEq
  rw [hmapeq] at hkeys
  exact List.pairwise_map.1 hkeys

/-- C2 amended: two distinct returned plans always differ in their city
signature (start city followed by the ordered arrival codes) — the code's
actual diversity key — though they may share the spec's country-level
signature, as `country_signature_shared_cex` shows. -/
theorem plans_pairwise_distinct_city_sig (a : SearchArgs) (fuel : Nat) :
    (find_best_travel_plan a fuel).Pairwise
      (fun p q => sigOfPlan (mkCtx a) p ≠ sigOfPlan (mkCtx a) q) := by
  unfold find_best_travel_plan
  split
  · exact List.Pairwise.nil
  split
  · exact List.Pairwise.nil
  have h := found_values_key_pairwise (searchLoop_foundInv a fuel)
  have hperm := List.perm_insertionSort planLe
    ((searchLoop (mkCtx a) fuel (initState a)).map Prod.snd)
  have hsorted := (hperm.pairwise_iff (fun {p q} => Ne.symm)).2 h
  exact hsorted.sublist (List.take_sublist _ _)

/-! ## C4 (amended) — malformed layover bounds -/

/-- With `min_layover > max_layover` the layover window is empty, so the
expansion step rejects every candidate connection. -/
theorem expandOne_none_of_bad_window {ctx : Ctx} {last : Flight} {c : EntryCore}
    {newCount : Int} {thr : Option Int} {nf : Flight}
    (h : ctx.min_layover_hours > ctx.max_layover_hours) :
    expandOne ctx last c newCount thr nf = none := by
  unfold expandOne
  split
  · rfl
  split
  · rfl
  split
  · rfl
  split
  · rfl
  rename_i hLay
  exfalso
  simp only [Bool.not_eq_true, Bool.not_eq_false', Bool.and_eq_true, decide_eq_true_eq]
    at hLay
  omega

theorem seedCores_path_len {a : SearchArgs} {core : EntryCore}
    (h : core ∈ seedCores a) : core.path.length = 1 := by
  unfold seedCores at h
  rw [List.mem_flatMap] at h
  obtain ⟨code, _, hseed⟩ := h
  unfold seedsFor at hseed
  split at hseed
  case h_1 => simp at hseed
  case h_2 c hc =>
    rw [List.mem_filterMap] at hseed
    obtain ⟨f, _, hf⟩ := hseed
    split at hf
    case h_1 => simp at hf
    case h_2 ac hac =>
      split at hf
      · simp at hf
      rw [Option.some.injEq] at hf
      rw [← hf]
      rfl

theorem offerCore_mem {ctx : Ctx} {sig : List String} {plan : TravelPlan}
    {found : List (List String × TravelPlan)} {doInsert : Bool}
    {kv : List String × TravelPlan}
    (h : kv ∈ offerCore ctx sig plan found doInsert) : kv = (sig, plan) ∨ kv ∈ found := by
  unfold offerCore at h
  by_cases hIns : doInsert = true
  · simp only [hIns, if_true, Bool.true_and] at h
    split at h
    · exact dictInsert_mem found sig plan kv ((removeFirstWithDur_sublist _ _).subset h)
    · exact dictInsert_mem found sig plan kv h
  · have hIns0 : doInsert = false := by
      revert hIns
      cases doInsert <;> simp
    simp only [hIns0, if_false, Bool.false_and] at h
    split at h
    · simp_all
    · exact Or.inr h

theorem offerPlan_mem {ctx : Ctx} {sig : List String} {plan : TravelPlan}
    {found : List (List String × TravelPlan)} {kv : List String × TravelPlan}
    (h : kv ∈ offerPlan ctx sig plan found) : kv = (sig, plan) ∨ kv ∈ found :=
  offerCore_mem h

theorem handleGoal_queue (ctx : Ctx) (e : Entry) (s : SState) :
    (handleGoal ctx e s).queue = s.queue := by
  unfold handleGoal
  split
  · rfl
  split
  · rfl
  rfl

theorem handleGoal_found_mem {ctx : Ctx} {e : Entry} {s : SState}
    {kv : List String × TravelPlan} (h : kv ∈ (handleGoal ctx e s).found) :
    kv.2 = TravelPlan.ofFlights e.core.path ∨ kv ∈ s.found := by
  unfold handleGoal at h
  split at h
  · exact Or.inr h
  split at h
  · exact Or.inr h
  rcases offerPlan_mem h with rfl | hold
  · exact Or.inl rfl
  · exact Or.inr hold

/-- One iteration under an empty layover window preserves one-leg-ness of
every queue path and every retained plan. -/
theorem processEntry_len1 {ctx : Ctx} {e : Entry} {s : SState}
    (hwin : ctx.min_layover_hours > ctx.max_layover_hours)
    (he : e.core.path.length = 1) (hq : ∀ x ∈ s.queue, x.core.path.length = 1)
    (hG : ∀ kv ∈ s.found, kv.2.flights.length = 1) :
    (∀ x ∈ (processEntry ctx e s).queue, x.core.path.length = 1) ∧
      (∀ kv ∈ (processEntry ctx e s).found, kv.2.flights.length = 1) := by
  unfold processEntry
  split
  · exact ⟨hq, hG⟩
  split
  · exact ⟨hq, hG⟩
  split
  case h_1 => exact ⟨hq, hG⟩
  case h_2 last _ =>
    split
    · exact ⟨hq, hG⟩
    split
    · refine ⟨?_, ?_⟩
      · rw [handleGoal_queue]
        exact hq
      · intro kv hkv
        rcases handleGoal_found_mem hkv with hkv2 | hkv2
        · rw [hkv2]
          exact he
        · exact hG kv hkv2
    · have hnil : (adjGet ctx.adj last.arrival_city_code).filterMap
          (expandOne ctx last e.core (countryCount ctx e.core) s.threshold) = [] := by
        rw [List.filterMap_eq_nil_iff]
        exact fun nf _ => expandOne_none_of_bad_window hwin
      refine ⟨?_, hG⟩
      intro x hx
      rw [hnil] at hx
      rcases List.mem_append.1 hx with hx | hx
      · exact hq x hx
      · simp [numberFrom] at hx

/-- C4 counterexample shows no error is raised; this is the amended claim:
no validation happens, the search simply runs with an unsatisfiable layover
window, so every returned plan (if any) is a single flight — multi-leg
connections are all rejected. -/
theorem malformed_layover_single_leg_plans (a : SearchArgs) (fuel : Nat)
    (h : a.min_layover_hours > a.max_layover_hours) :
    ∀ p ∈ find_best_travel_plan a fuel, p.flights.length = 1 := by
  intro p hp
  obtain ⟨kv, hkv, hkv2⟩ := find_mem_plan hp
  have hG := searchLoop_inv (mkCtx a) (fun core => core.path.length = 1)
    (fun found => ∀ kv ∈ found, kv.2.flights.length = 1)
    (fun e s he hq hG => processEntry_len1 h he hq hG)
    fuel (initState a)
    (fun x hx => seedCores_path_len (numberFrom_mem _ _ _ hx))
    (fun kv hkv => absurd hkv (List.not_mem_nil kv))
  rw [← hkv2]
  exact hG kv hkv

/-- Witness: the malformed-window scenario still returns a one-leg plan. -/
theorem malformed_layover_single_leg_plans_witness :
    argsC4.min_layover_hours > argsC4.max_layover_hours ∧
      TravelPlan.ofFlights [flightC4] ∈ find_best_travel_plan argsC4 10 ∧
      (TravelPlan.ofFlights [flightC4]).flights.length = 1 :=
  ⟨by decide, by decide,
    malformed_layover_single_leg_plans argsC4 10 (by decide)
      (TravelPlan.ofFlights [flightC4]) (by decide)⟩
